import Mathlib

/-!
Verification of the guess-song chat game (src/main.py) against its
natural-language specification.

The development shallowly embeds the plugin's session engine:

* text handling works on `List Char` (one entry per Unicode code point,
  matching Python's per-code-point string semantics);
* Python dicts keyed by string become insertion-ordered association lists
  (`dictGet` / `dictSet` / `dictDel` mirror `d[k]`, `d[k] = v`, `del d[k]`);
* the asyncio timer of a round becomes a task id (`Nat`); cancelling a task
  adds its id to a cancelled set.  An asyncio task whose `cancel()` was
  requested receives `CancelledError` at its next resumption point before
  executing any further body statement, and `_round_timeout` catches that
  exception and does nothing, so a cancelled timer firing is a pure no-op;
* the random song pick (`_get_random_song`) is an external collaborator in
  the spec; it is modelled as consuming the head of an explicit song queue,
  `none`/empty queue standing for "no song available";
* outbound chat messages become constructor-tagged `Output` values.
-/

/-- Python whitespace characters stripped by str.strip (ASCII fragment;
the chat texts and song titles handled by the plugin contain no exotic
Unicode whitespace). -/
def isPySpace (c : Char) : Bool :=
  c = ' ' || c = '\t' || c = '\n' || c = '\r' || c = '\x0b' || c = '\x0c'

/-- Python str.strip(): drop leading and trailing whitespace. -/
def pyStrip (s : List Char) : List Char :=
  ((s.dropWhile isPySpace).reverse.dropWhile isPySpace).reverse

/-- Python str.lower(), restricted to the ASCII case mapping.  The plugin's
song titles are filtered upstream to pure CJK characters (on which lowering
is the identity in Python as well), and the spec's own examples use ASCII. -/
def pyLower (c : Char) : Char := Char.toLower c

/-- The normalisation in _check_answer (src/main.py lines 350-352):
strip, lower-case, then remove every space character. -/
def normalizeAnswer (s : List Char) : List Char :=
  ((pyStrip s).map pyLower).filter (fun c => c ≠ ' ')

/-- Python list/str startswith on code-point lists. -/
def startsWithList (sub : List Char) (l : List Char) : Bool :=
  match sub, l with
  | [], _ => true
  | _ :: _, [] => false
  | a :: as, b :: bs => a = b && startsWithList as bs

/-- Python substring containment (sub in l) on code-point lists. -/
def substrOf (sub : List Char) : List Char → Bool
  | [] => decide (sub = [])
  | b :: bs => startsWithList sub (b :: bs) || substrOf sub bs

/-- _check_answer (src/main.py lines 348-366): normalise both sides, then
exact equality, or the expected title occurs in the submission, or the
submission has length at least 2 and occurs in the expected title. -/
def check_answer (user_input correct_answer : List Char) : Bool :=
  let u := normalizeAnswer user_input
  let t := normalizeAnswer correct_answer
  if u = t then true
  else if substrOf t u then true
  else if decide (2 ≤ u.length) && substrOf u t then true
  else false

/-- The full-width asterisk used to mask unrevealed title characters. -/
def maskChar : Char := '＊'

/-- _get_hint (src/main.py lines 336-346): for level ≤ 0 a fully masked
string; otherwise a copy of the mask string whose first
min(level, len) positions the loop overwrites with the title's characters. -/
def get_hint (song_name : List Char) (level : Int) : List Char :=
  if level ≤ 0 then
    List.replicate song_name.length maskChar
  else
    let revealed := min level.toNat song_name.length
    (List.range song_name.length).map
      (fun i => if i < revealed then song_name.getD i maskChar else maskChar)

/-- Session status (GameSession.status in src/main.py line 50):
waiting / playing / ended. -/
inductive Status where
  | waiting
  | playing
  | ended
deriving DecidableEq, Repr

/-- One entry of the participants dict (src/main.py line 51):
display name and in-session score. -/
structure Participant where
  name : String
  score : Nat
deriving DecidableEq, Repr

/-- A song record {id, name, artist} (src/main.py line 52).  The title and
artist are code-point lists because the hint and matching logic are
per-character. -/
structure Song where
  id : Nat
  name : List Char
  artist : List Char
deriving DecidableEq, Repr

/-- GameSession (src/main.py lines 46-59).  start_time and umo are wall
clock / transport bookkeeping with no bearing on the claims and are not
modelled.  timeout_task holds the armed round timer's task id. -/
structure GameSession where
  groupId : String
  status : Status
  participants : List (String × Participant)
  currentSong : Option Song
  hintLevel : Nat
  roundNum : Nat
  timeoutTask : Option Nat
  creatorId : String
  roundAnswered : Bool
deriving DecidableEq, Repr

/-- One durable leaderboard entry (src/main.py lines 398-403):
{nickname, score, wins}. -/
structure UserStat where
  nickname : String
  score : Nat
  wins : Nat
deriving DecidableEq, Repr

/-- Plugin configuration (src/main.py lines 76-80). -/
structure Config where
  roundTimeout : Nat
  maxRounds : Nat
  adminIds : List String
  minPlayers : Nat
  maxPlayers : Nat
deriving DecidableEq, Repr

/-- Challenge prompt emitted at settlement (src/main.py lines 583-594):
either the unique lowest scorer is nominated, or the winner is asked to
pick one of the tied lowest scorers.  The random truth-or-dare kind is
cosmetic and not modelled. -/
inductive Challenge where
  | nominate (loserId : String)
  | winnerPicks (winnerId : String) (loserIds : List String)
deriving DecidableEq, Repr

/-- Constructor-tagged outbound messages; only the data the claims inspect
is carried. -/
inductive Output where
  | joinOkWaiting (uid : String) (count : Nat)
  | joinOkPlaying (uid : String) (count : Nat)
  | alreadyJoined
  | rosterFull (maxPlayers : Nat)
  | pleaseJoin
  | correctGuess (uid : String) (song : Song) (total : Nat)
  | timeoutReveal (song : Song)
  | roundStart (round : Nat) (song : Song)
  | noSong
  | noParticipants (rounds : Nat)
  | settlement (rounds : Nat) (ranking : List (String × Participant))
      (challenge : Option Challenge)
  | hintMsg (level : Nat) (hint : List Char) (artist : List Char)
  | tooFewPlayers (minPlayers : Nat)
  | unauthorized
  | started (count : Nat)
  | playingInfo (round : Nat) (hint : List Char)
  | noSession
  | stateAbnormal
deriving DecidableEq, Repr

/-- Whole-plugin state: the session registry self.sessions, the set of
cancelled timer task ids, a fresh-task-id counter, the per-group durable
stats files, and the song queue standing in for _get_random_song. -/
structure PluginState where
  sessions : List (String × GameSession)
  cancelled : List Nat
  nextTaskId : Nat
  stats : List (String × List (String × UserStat))
  songQueue : List Song
deriving DecidableEq, Repr

/-- Python d.get(k) / d[k] lookup on an insertion-ordered dict. -/
def dictGet {α : Type} (k : String) : List (String × α) → Option α
  | [] => none
  | (k', v) :: rest => if k' = k then some v else dictGet k rest

/-- Python d[k] = v: overwrite in place if the key exists (its position is
kept), otherwise append at the end. -/
def dictSet {α : Type} (k : String) (v : α) : List (String × α) → List (String × α)
  | [] => [(k, v)]
  | (k', v') :: rest =>
      if k' = k then (k, v) :: rest else (k', v') :: dictSet k v rest

/-- Python del d[k]. -/
def dictDel {α : Type} (k : String) (l : List (String × α)) : List (String × α) :=
  l.filter (fun p => p.1 ≠ k)

/-- Cancelling a session's armed timeout task (session.timeout_task.cancel()):
the id joins the cancelled set.  Idempotent by construction. -/
def cancelTimer (s : GameSession) (cancelled : List Nat) : List Nat :=
  match s.timeoutTask with
  | some t => t :: cancelled
  | none => cancelled

/-- Stable insertion keeping descending score order; an element is placed
after every strictly higher score and before equal ones (it comes earlier
in the original list than everything already inserted). -/
def insertDesc (x : String × Participant) :
    List (String × Participant) → List (String × Participant)
  | [] => [x]
  | y :: ys => if x.2.score < y.2.score then y :: insertDesc x ys else x :: y :: ys

/-- Python sorted(scores.items(), key=score, reverse=True) — a stable
descending sort (src/main.py line 558).  Stable sorts are extensionally
unique, so stable insertion sort is the sorted() of the source. -/
def sortDescByScore : List (String × Participant) → List (String × Participant)
  | [] => []
  | x :: xs => insertDesc x (sortDescByScore xs)

/-- _add_score (src/main.py lines 393-405) acting on one group's stats
file: create the entry at zero if absent, then add the points, bump the
win count and overwrite the nickname. -/
def add_score_users (users : List (String × UserStat)) (uid nickname : String)
    (points : Nat) : List (String × UserStat) :=
  let base := (dictGet uid users).getD ⟨nickname, 0, 0⟩
  dictSet uid ⟨nickname, base.score + points, base.wins + 1⟩ users

/-- _add_score at the whole-table level: _load_stats defaults a missing
file to an empty user dict, and _save_stats writes the file back. -/
def add_score (stats : List (String × List (String × UserStat)))
    (gid uid nickname : String) (points : Nat) :
    List (String × List (String × UserStat)) :=
  let file := (dictGet gid stats).getD []
  dictSet gid (add_score_users file uid nickname points) stats

/-- The settlement loop over the ranking (src/main.py lines 562-569):
each participant with a positive score is merged into the durable stats,
in ranking order; zero scorers perform no write at all. -/
def mergeScores (stats : List (String × List (String × UserStat)))
    (gid : String) : List (String × Participant) →
    List (String × List (String × UserStat))
  | [] => stats
  | (uid, p) :: rest =>
      if 0 < p.score then mergeScores (add_score stats gid uid p.name p.score) gid rest
      else mergeScores stats gid rest

/-- Minimum session score as the source computes it: the score of the last
element of the descending ranking (sorted_scores[-1], src/main.py 577). -/
def rankMin (ranking : List (String × Participant)) : Nat :=
  match ranking.getLast? with
  | some q => q.2.score
  | none => 0

/-- The truth-or-dare nomination (src/main.py lines 571-594): only with at
least two participants; the minimum scorers are the losers; a unique loser
is nominated, otherwise the top scorer picks among the tied losers. -/
def computeChallenge (ranking : List (String × Participant)) : Option Challenge :=
  match ranking with
  | [] => none
  | [_] => none
  | (wid, _) :: _ :: _ =>
      let losers := ranking.filter (fun q => q.2.score == rankMin ranking)
      match losers with
      | [(lid, _)] => some (Challenge.nominate lid)
      | _ => some (Challenge.winnerPicks wid (losers.map Prod.fst))

/-- _end_game (src/main.py lines 534-601): cancel the timer, mark ended
(the session is deleted right after, so only the deletion is observable),
rank, merge positive scorers into the durable stats, emit the settlement
with its challenge prompt, and delete the session from the registry.  With
no participants nothing is written and only the deletion happens. -/
def end_game (st : PluginState) (gid : String) : PluginState × List Output :=
  match dictGet gid st.sessions with
  | none => (st, [])
  | some s =>
      let cancelled := cancelTimer s st.cancelled
      if s.participants = [] then
        ({ st with sessions := dictDel gid st.sessions, cancelled := cancelled },
         [Output.noParticipants s.roundNum])
      else
        let ranking := sortDescByScore s.participants
        ({ st with sessions := dictDel gid st.sessions,
                   stats := mergeScores st.stats gid ranking,
                   cancelled := cancelled },
         [Output.settlement s.roundNum ranking (computeChallenge ranking)])

/-- _next_round (src/main.py lines 430-507): past the round limit, or with
no song available, settle and stop; otherwise install the song, reset the
hint level and the answered flag, bump the round number, cancel the
previous timer and arm a fresh one. -/
def next_round (cfg : Config) (st : PluginState) (gid : String) :
    PluginState × List Output :=
  match dictGet gid st.sessions with
  | none => (st, [])
  | some s =>
      let nr := s.roundNum + 1
      if cfg.maxRounds < nr then
        end_game st gid
      else
        match st.songQueue with
        | [] =>
            let r := end_game st gid
            (r.1, Output.noSong :: r.2)
        | song :: rest =>
            let s2 := { s with currentSong := some song, hintLevel := 0,
                               roundNum := nr, roundAnswered := false,
                               timeoutTask := some st.nextTaskId }
            ({ st with sessions := dictSet gid s2 st.sessions,
                       songQueue := rest,
                       cancelled := cancelTimer s st.cancelled,
                       nextTaskId := st.nextTaskId + 1 },
             [Output.roundStart nr song])

/-- _start_game (src/main.py lines 408-428): mark playing, zero the round
counter, announce, then run the first round advance.  _get_session would
create a fresh waiting session if none existed (unreachable from the
command path, which checks first). -/
def start_game (cfg : Config) (st : PluginState) (gid : String) :
    PluginState × List Output :=
  let s := (dictGet gid st.sessions).getD
    { groupId := gid, status := Status.waiting, participants := [],
      currentSong := none, hintLevel := 0, roundNum := 0,
      timeoutTask := none, creatorId := "", roundAnswered := false }
  let s2 := { s with status := Status.playing, roundNum := 0 }
  let st2 := { st with sessions := dictSet gid s2 st.sessions }
  let r := next_round cfg st2 gid
  (r.1, Output.started s2.participants.length :: r.2)

/-- cmd_start_game (src/main.py lines 660-705): no session → error; a
playing session shows the current question (state unchanged); a non-waiting
session is abnormal; then the player-count check, then the creator/admin
authorisation check, and only then the actual start. -/
def cmd_start_game (cfg : Config) (st : PluginState) (gid uid : String) :
    PluginState × List Output :=
  match dictGet gid st.sessions with
  | none => (st, [Output.noSession])
  | some s =>
      if s.status = Status.playing then
        match s.currentSong with
        | some song =>
            (st, [Output.playingInfo s.roundNum (get_hint song.name (s.hintLevel : Int))])
        | none => (st, [])
      else if s.status ≠ Status.waiting then
        (st, [Output.stateAbnormal])
      else if s.participants.length < cfg.minPlayers then
        (st, [Output.tooFewPlayers cfg.minPlayers])
      else if uid ≠ s.creatorId ∧ uid ∉ cfg.adminIds then
        (st, [Output.unauthorized])
      else
        start_game cfg st gid

/-- cmd_hint (src/main.py lines 707-729): only meaningful while playing;
increments the stored hint level unconditionally (no cap) and renders the
hint at the new level.  A playing session without a current song would
raise KeyError after the increment, so the increment persists and no
message goes out. -/
def cmd_hint (st : PluginState) (gid : String) : PluginState × List Output :=
  match dictGet gid st.sessions with
  | none => (st, [Output.noSession])
  | some s =>
      if s.status ≠ Status.playing then (st, [Output.noSession])
      else
        let s2 := { s with hintLevel := s.hintLevel + 1 }
        match s.currentSong with
        | none => ({ st with sessions := dictSet gid s2 st.sessions }, [])
        | some song =>
            ({ st with sessions := dictSet gid s2 st.sessions },
             [Output.hintMsg s2.hintLevel (get_hint song.name (s2.hintLevel : Int))
                song.artist])

/-- The music-note emoji triggering a join. -/
def musicNote : Char := '🎶'

/-- Result of the synchronous part of the free-text handler: the state and
messages produced before its trailing awaits, and whether a round advance
was triggered (the code then sleeps two seconds and runs _next_round). -/
structure StepResult where
  state : PluginState
  outputs : List Output
  advance : Bool
deriving DecidableEq, Repr

/-- on_message (src/main.py lines 876-965) up to, but not including, the
deferred _next_round call of the correct-answer path: strip the text; no
session → nothing; a 🎶 in waiting/playing joins (already-joined and
roster-full checks, in that order); otherwise, while playing, a non-command
text matching the current title is checked against the answered flag and
the roster, and on acceptance marks the round answered, cancels the timer
and credits exactly one point. -/
def on_message_core (cfg : Config) (st : PluginState) (gid uid nickname : String)
    (rawText : List Char) : StepResult :=
  let text := pyStrip rawText
  if text = [] then ⟨st, [], false⟩
  else
    match dictGet gid st.sessions with
    | none => ⟨st, [], false⟩
    | some s =>
        if text.contains musicNote = true ∧
            (s.status = Status.waiting ∨ s.status = Status.playing) then
          if (dictGet uid s.participants).isSome then
            ⟨st, [Output.alreadyJoined], false⟩
          else if cfg.maxPlayers ≤ s.participants.length then
            ⟨st, [Output.rosterFull cfg.maxPlayers], false⟩
          else
            let s2 := { s with participants := dictSet uid ⟨nickname, 0⟩ s.participants }
            ⟨{ st with sessions := dictSet gid s2 st.sessions },
             [if s.status = Status.waiting then
                Output.joinOkWaiting uid s2.participants.length
              else Output.joinOkPlaying uid s2.participants.length],
             false⟩
        else if s.status = Status.playing then
          let answerName := match s.currentSong with
            | some song => song.name
            | none => []
          if answerName = [] then ⟨st, [], false⟩
          else if text.head? = some '#' ∨ text.head? = some '/' then ⟨st, [], false⟩
          else if check_answer text answerName then
            if s.roundAnswered then ⟨st, [], false⟩
            else
              match dictGet uid s.participants with
              | none => ⟨st, [Output.pleaseJoin], false⟩
              | some p =>
                  let p2 : Participant := { p with score := p.score + 1 }
                  let s2 := { s with roundAnswered := true,
                                     participants := dictSet uid p2 s.participants }
                  let song := match s.currentSong with
                    | some sg => sg
                    | none => ⟨0, [], []⟩
                  ⟨{ st with sessions := dictSet gid s2 st.sessions,
                             cancelled := cancelTimer s st.cancelled },
                   [Output.correctGuess uid song p2.score], true⟩
          else ⟨st, [], false⟩
        else ⟨st, [], false⟩

/-- on_message in full: the synchronous part, then — when a correct answer
was accepted — the deferred round advance. -/
def on_message (cfg : Config) (st : PluginState) (gid uid nickname : String)
    (rawText : List Char) : PluginState × List Output :=
  let r := on_message_core cfg st gid uid nickname rawText
  if r.advance then
    let n := next_round cfg r.state gid
    (n.1, r.outputs ++ n.2)
  else (r.state, r.outputs)

/-- _round_timeout resuming after its sleep (src/main.py lines 509-532).
If the task was cancelled, asyncio delivers CancelledError at this
resumption point before any body statement runs, the handler catches it
(line 529) and nothing happens.  Otherwise: a missing or non-playing
session silently exits; with an empty current_song the message raises
KeyError, caught by the generic handler with no state change; otherwise
the timeout reveal goes out and the round advances. -/
def fire_timeout (cfg : Config) (st : PluginState) (gid : String) (tid : Nat) :
    PluginState × List Output :=
  if st.cancelled.contains tid then (st, [])
  else
    match dictGet gid st.sessions with
    | none => (st, [])
    | some s =>
        if s.status ≠ Status.playing then (st, [])
        else
          match s.currentSong with
          | none => (st, [])
          | some song =>
              let n := next_round cfg st gid
              (n.1, Output.timeoutReveal song :: n.2)

/-- Configuration used by the concrete witnesses: one-player minimum,
twenty-player cap, ten rounds, one administrator "root". -/
def demoCfg : Config :=
  { roundTimeout := 60, maxRounds := 10, adminIds := ["root"],
    minPlayers := 1, maxPlayers := 20 }

/-- A concrete mid-game session: two enrolled players, round 3 of the song
《月亮》 with timer task 5 armed and the round still open. -/
def demoSession : GameSession :=
  { groupId := "g", status := Status.playing,
    participants := [("A", ⟨"甲", 2⟩), ("B", ⟨"乙", 0⟩)],
    currentSong := some ⟨77, "月亮".toList, "歌手".toList⟩,
    hintLevel := 0, roundNum := 3, timeoutTask := some 5,
    creatorId := "A", roundAnswered := false }

/-- A concrete plugin state holding only the demo session, with one spare
song queued for the next round. -/
def demoState : PluginState :=
  { sessions := [("g", demoSession)], cancelled := [], nextTaskId := 6,
    stats := [("g", [("A", ⟨"旧甲", 7, 2⟩)])],
    songQueue := [⟨88, "晴天".toList, "周杰伦".toList⟩] }

theorem startsWithList_iff (sub : List Char) : ∀ l : List Char,
    startsWithList sub l = true ↔ ∃ r, l = sub ++ r := by
  induction sub with
  | nil => intro l; simp [startsWithList]
  | cons a as ih =>
      intro l
      cases l with
      | nil => simp [startsWithList]
      | cons b bs =>
          simp only [startsWithList, Bool.and_eq_true, decide_eq_true_eq, ih]
          constructor
          · rintro ⟨rfl, r, rfl⟩
            exact ⟨r, rfl⟩
          · rintro ⟨r, h⟩
            rw [List.cons_append] at h
            injection h with h1 h2
            exact ⟨h1.symm, r, h2⟩

theorem substrOf_iff (sub : List Char) : ∀ l : List Char,
    substrOf sub l = true ↔ ∃ p r, l = p ++ sub ++ r := by
  intro l
  induction l with
  | nil =>
      simp only [substrOf, decide_eq_true_eq]
      constructor
      · rintro rfl
        exact ⟨[], [], rfl⟩
      · rintro ⟨p, r, h⟩
        rcases List.append_eq_nil.mp (List.append_eq_nil.mp h.symm).1 with ⟨-, h2⟩
        exact h2
  | cons b bs ih =>
      simp only [substrOf, Bool.or_eq_true, ih, startsWithList_iff]
      constructor
      · rintro (⟨r, h⟩ | ⟨p, r, rfl⟩)
        · exact ⟨[], r, by simpa using h⟩
        · exact ⟨b :: p, r, rfl⟩
      · rintro ⟨p, r, h⟩
        cases p with
        | nil =>
            left
            exact ⟨r, by simpa using h⟩
        | cons x xs =>
            right
            rw [List.cons_append, List.cons_append] at h
            injection h with h1 h2
            exact ⟨xs, r, by simpa using h2⟩

/-- C3: check_answer normalises both sides (trim, lower-case, drop internal
spaces) and then accepts exactly when the normalisations are equal, the
normalised title occurs inside the normalised submission, or the normalised
submission has length at least two and occurs inside the normalised title;
in particular 月亮/月亮, 我好喜欢月亮啊/月亮 and " Moon "/moon match while
月/月亮 does not. -/
theorem check_answer_spec :
    (∀ u t : List Char,
      check_answer u t = true ↔
        (normalizeAnswer u = normalizeAnswer t ∨
         (∃ p r, normalizeAnswer u = p ++ normalizeAnswer t ++ r) ∨
         (2 ≤ (normalizeAnswer u).length ∧
          ∃ p r, normalizeAnswer t = p ++ normalizeAnswer u ++ r))) ∧
    check_answer "月亮".toList "月亮".toList = true ∧
    check_answer "我好喜欢月亮啊".toList "月亮".toList = true ∧
    check_answer "月".toList "月亮".toList = false ∧
    check_answer " Moon ".toList "moon".toList = true := by
  refine ⟨?_, by decide, by decide, by decide, by decide⟩
  intro u t
  unfold check_answer
  dsimp only
  split_ifs with h1 h2 h3
  · simp only [true_iff]
    exact Or.inl h1
  · simp only [true_iff]
    exact Or.inr (Or.inl ((substrOf_iff _ _).mp h2))
  · simp only [Bool.and_eq_true, decide_eq_true_eq] at h3
    simp only [true_iff]
    exact Or.inr (Or.inr ⟨h3.1, (substrOf_iff _ _).mp h3.2⟩)
  · simp only [false_iff]
    rintro (h | h | ⟨hlen, h⟩)
    · exact h1 h
    · exact h2 ((substrOf_iff _ _).mpr h)
    · exact h3 (by simp only [Bool.and_eq_true, decide_eq_true_eq]
                   exact ⟨hlen, (substrOf_iff _ _).mpr h⟩)

theorem get_hint_take_replicate (song_name : List Char) (level : Int) :
    get_hint song_name level =
      song_name.take (min level.toNat song_name.length) ++
      List.replicate (song_name.length - min level.toNat song_name.length) maskChar := by
  by_cases h : level ≤ 0
  · rw [get_hint, if_pos h, Int.toNat_of_nonpos h]
    simp
  · rw [get_hint, if_neg h]
    dsimp only
    have hr : min level.toNat song_name.length ≤ song_name.length := Nat.min_le_right _ _
    have hlt : (song_name.take (min level.toNat song_name.length)).length
        = min level.toNat song_name.length := by
      rw [List.length_take, Nat.min_eq_left hr]
    apply List.ext_getElem
    · simp [Nat.add_sub_cancel' hr, Nat.min_eq_left hr]
    · intro i h1 h2
      simp only [List.getElem_map, List.getElem_range]
      simp only [List.length_map, List.length_range] at h1
      by_cases hi : i < min level.toNat song_name.length
      · rw [if_pos hi, List.getElem_append_left (hlt.symm ▸ hi), List.getElem_take,
          List.getD_eq_getElem _ _ h1]
      · rw [if_neg hi, List.getElem_append_right (hlt.symm ▸ Nat.le_of_not_lt hi),
          List.getElem_replicate]

/-- C5: for every title and integer level the rendered hint keeps the
title's length, consists of the first min(level, length) title characters
followed by mask characters at every remaining position, and a level at or
below zero reveals nothing (its clamped reveal count is zero, giving the
fully masked string). -/
theorem get_hint_spec :
    ∀ (song_name : List Char) (level : Int),
      (get_hint song_name level).length = song_name.length ∧
      get_hint song_name level =
        song_name.take (min level.toNat song_name.length) ++
        List.replicate (song_name.length - min level.toNat song_name.length) maskChar ∧
      (level ≤ 0 →
        get_hint song_name level = List.replicate song_name.length maskChar) := by
  intro song_name level
  have hr : min level.toNat song_name.length ≤ song_name.length := Nat.min_le_right _ _
  refine ⟨?_, get_hint_take_replicate song_name level, fun h => ?_⟩
  · rw [get_hint_take_replicate]
    simp [Nat.add_sub_cancel' hr, Nat.min_eq_left hr]
  · rw [get_hint, if_pos h]

/-- Witness for C5 at the concrete title 月亮 and level -3. -/
theorem get_hint_spec_witness :
    (get_hint "月亮".toList (-3)).length = 2 ∧
    get_hint "月亮".toList (-3) = List.replicate 2 maskChar := by
  have h := get_hint_spec "月亮".toList (-3)
  exact ⟨by rw [h.1]; decide, by rw [h.2.2 (by decide)]; decide⟩

theorem dictGet_dictSet_self {α : Type} (k : String) (v : α) (l : List (String × α)) :
    dictGet k (dictSet k v l) = some v := by
  induction l with
  | nil => simp [dictGet, dictSet]
  | cons p rest ih =>
      obtain ⟨k', v'⟩ := p
      by_cases h : k' = k
      · simp [dictGet, dictSet, h]
      · simp [dictGet, dictSet, h, ih]

theorem dictGet_dictSet_ne {α : Type} (k k2 : String) (v : α) (l : List (String × α))
    (h : k2 ≠ k) : dictGet k2 (dictSet k v l) = dictGet k2 l := by
  induction l with
  | nil => simp [dictGet, dictSet, Ne.symm h]
  | cons p rest ih =>
      obtain ⟨k', v'⟩ := p
      by_cases hk : k' = k
      · subst hk
        simp [dictGet, dictSet, Ne.symm h]
      · simp [dictGet, dictSet, hk, ih]

theorem dictGet_dictDel_self {α : Type} (k : String) (l : List (String × α)) :
    dictGet k (dictDel k l) = none := by
  induction l with
  | nil => simp [dictGet, dictDel]
  | cons p rest ih =>
      obtain ⟨k', v'⟩ := p
      by_cases h : k' = k
      · simpa [dictDel, List.filter_cons, h] using ih
      · simpa [dictDel, dictGet, List.filter_cons, h] using ih

theorem dictGet_dictDel_ne {α : Type} (k k2 : String) (l : List (String × α))
    (h : k2 ≠ k) : dictGet k2 (dictDel k l) = dictGet k2 l := by
  induction l with
  | nil => simp [dictDel]
  | cons p rest ih =>
      obtain ⟨k', v'⟩ := p
      simp only [dictDel, decide_not] at ih
      by_cases hk : k' = k
      · subst hk
        simp [dictDel, dictGet, List.filter_cons, Ne.symm h, ih]
      · simp [dictDel, dictGet, List.filter_cons, hk, ih]

theorem dictSet_new_append {α : Type} (k : String) (v : α) (l : List (String × α))
    (h : dictGet k l = none) : dictSet k v l = l ++ [(k, v)] := by
  induction l with
  | nil => simp [dictSet]
  | cons p rest ih =>
      obtain ⟨k', v'⟩ := p
      rw [dictGet] at h
      by_cases hk : k' = k
      · rw [if_pos hk] at h
        exact absurd h (by simp)
      · rw [if_neg hk] at h
        simp [dictSet, hk, ih h]

theorem insertDesc_perm (x : String × Participant) (l : List (String × Participant)) :
    (insertDesc x l).Perm (x :: l) := by
  induction l with
  | nil => simp [insertDesc]
  | cons y ys ih =>
      rw [insertDesc]
      by_cases h : x.2.score < y.2.score
      · rw [if_pos h]
        exact (ih.cons y).trans (List.Perm.swap x y ys)
      · rw [if_neg h]

theorem sortDescByScore_perm (l : List (String × Participant)) :
    (sortDescByScore l).Perm l := by
  induction l with
  | nil => simp [sortDescByScore]
  | cons x xs ih =>
      rw [sortDescByScore]
      exact (insertDesc_perm x _).trans (ih.cons x)

theorem insertDesc_sorted (x : String × Participant) (l : List (String × Participant))
    (hl : l.Pairwise (fun a b => b.2.score ≤ a.2.score)) :
    (insertDesc x l).Pairwise (fun a b => b.2.score ≤ a.2.score) := by
  induction l with
  | nil => simp [insertDesc]
  | cons y ys ih =>
      rw [insertDesc]
      rcases List.pairwise_cons.mp hl with ⟨hy, hys⟩
      by_cases h : x.2.score < y.2.score
      · rw [if_pos h]
        refine List.pairwise_cons.mpr ⟨?_, ih hys⟩
        intro z hz
        rcases List.mem_cons.mp ((insertDesc_perm x ys).mem_iff.mp hz) with rfl | hz
        · exact Nat.le_of_lt h
        · exact hy z hz
      · rw [if_neg h]
        refine List.pairwise_cons.mpr ⟨?_, hl⟩
        intro z hz
        rcases List.mem_cons.mp hz with rfl | hz
        · exact Nat.le_of_not_lt h
        · exact le_trans (hy z hz) (Nat.le_of_not_lt h)

theorem sortDescByScore_sorted (l : List (String × Participant)) :
    (sortDescByScore l).Pairwise (fun a b => b.2.score ≤ a.2.score) := by
  induction l with
  | nil => simp [sortDescByScore]
  | cons x xs ih =>
      rw [sortDescByScore]
      exact insertDesc_sorted x _ ih

theorem filter_insertDesc (x : String × Participant) (l : List (String × Participant))
    (v : Nat) :
    (insertDesc x l).filter (fun q => q.2.score == v) =
      ((x :: l).filter (fun q => q.2.score == v)) := by
  induction l with
  | nil => simp [insertDesc]
  | cons y ys ih =>
      rw [insertDesc]
      by_cases h : x.2.score < y.2.score
      · rw [if_pos h]
        by_cases hx : x.2.score = v
        · have hy : ¬(y.2.score = v) := by omega
          simp [List.filter_cons, hx, hy, ih]
        · simp [List.filter_cons, hx, ih]
      · rw [if_neg h]

theorem filter_sortDescByScore (l : List (String × Participant)) (v : Nat) :
    (sortDescByScore l).filter (fun q => q.2.score == v) =
      l.filter (fun q => q.2.score == v) := by
  induction l with
  | nil => rfl
  | cons x xs ih =>
      rw [sortDescByScore, filter_insertDesc]
      simp only [List.filter_cons, ih]

theorem dictGet_none_iff {α : Type} (k : String) (l : List (String × α)) :
    dictGet k l = none ↔ k ∉ l.map Prod.fst := by
  induction l with
  | nil => simp [dictGet]
  | cons p rest ih =>
      obtain ⟨k', v'⟩ := p
      rw [List.map_cons, dictGet]
      by_cases h : k' = k
      · simp [h]
      · rw [if_neg h, ih]
        have hne : ¬ k = k' := fun hh => h hh.symm
        simp only [List.mem_cons]
        tauto

theorem dictGet_some_of_mem {α : Type} {k : String} {v : α} {l : List (String × α)}
    (hnd : (l.map Prod.fst).Nodup) (hm : (k, v) ∈ l) : dictGet k l = some v := by
  induction l with
  | nil => cases hm
  | cons p rest ih =>
      obtain ⟨k', v'⟩ := p
      rw [List.map_cons] at hnd
      rcases List.nodup_cons.mp hnd with ⟨hk', hnd'⟩
      rcases List.mem_cons.mp hm with h | h
      · injection h with h1 h2
        subst h1
        subst h2
        simp [dictGet]
      · have hne : k' ≠ k := by
          rintro rfl
          exact hk' (List.mem_map.mpr ⟨(k', v), h, rfl⟩)
        simp [dictGet, hne, ih hnd' h]

theorem dictGet_perm {α : Type} {l l2 : List (String × α)} (hp : l.Perm l2)
    (hnd : (l2.map Prod.fst).Nodup) (k : String) : dictGet k l = dictGet k l2 := by
  cases h : dictGet k l2 with
  | some v =>
      have hm : (k, v) ∈ l2 := by
        clear hp hnd
        induction l2 with
        | nil => cases h
        | cons p rest ih =>
            obtain ⟨k', v'⟩ := p
            rw [dictGet] at h
            by_cases hk : k' = k
            · rw [if_pos hk] at h
              injection h with h1
              subst hk
              subst h1
              exact List.mem_cons_self _ _
            · rw [if_neg hk] at h
              exact List.mem_cons_of_mem _ (ih h)
      exact dictGet_some_of_mem ((hp.map Prod.fst).nodup_iff.mpr hnd)
        (hp.mem_iff.mpr hm) |>.trans h.symm |>.trans h
  | none =>
      rw [dictGet_none_iff] at h ⊢
      intro hc
      exact h ((hp.map Prod.fst).mem_iff.mp hc)

theorem add_score_lookup_self (stats : List (String × List (String × UserStat)))
    (gid uid nickname : String) (points : Nat) :
    dictGet uid ((dictGet gid (add_score stats gid uid nickname points)).getD []) =
      some ⟨nickname,
        ((dictGet uid ((dictGet gid stats).getD [])).getD ⟨nickname, 0, 0⟩).score + points,
        ((dictGet uid ((dictGet gid stats).getD [])).getD ⟨nickname, 0, 0⟩).wins + 1⟩ := by
  simp only [add_score, add_score_users, dictGet_dictSet_self, Option.getD_some]

theorem add_score_lookup_ne (stats : List (String × List (String × UserStat)))
    (gid uid uid2 nickname : String) (points : Nat) (h : uid2 ≠ uid) :
    dictGet uid2 ((dictGet gid (add_score stats gid uid nickname points)).getD []) =
      dictGet uid2 ((dictGet gid stats).getD []) := by
  simp only [add_score, add_score_users, dictGet_dictSet_self, Option.getD_some,
    dictGet_dictSet_ne _ _ _ _ h]

theorem add_score_other_group (stats : List (String × List (String × UserStat)))
    (gid g2 uid nickname : String) (points : Nat) (h : g2 ≠ gid) :
    dictGet g2 (add_score stats gid uid nickname points) = dictGet g2 stats := by
  simp only [add_score, dictGet_dictSet_ne _ _ _ _ h]

theorem mergeScores_other_group (gid g2 : String) (h : g2 ≠ gid) :
    ∀ (l : List (String × Participant)) (stats : List (String × List (String × UserStat))),
    dictGet g2 (mergeScores stats gid l) = dictGet g2 stats := by
  intro l
  induction l with
  | nil => intro stats; rfl
  | cons q rest ih =>
      intro stats
      obtain ⟨uid, p⟩ := q
      rw [mergeScores]
      by_cases hp : 0 < p.score
      · rw [if_pos hp, ih, add_score_other_group _ _ _ _ _ _ h]
      · rw [if_neg hp, ih]

theorem mergeScores_not_mem (gid uid : String) :
    ∀ (l : List (String × Participant)) (stats : List (String × List (String × UserStat))),
    uid ∉ l.map Prod.fst →
    dictGet uid ((dictGet gid (mergeScores stats gid l)).getD []) =
      dictGet uid ((dictGet gid stats).getD []) := by
  intro l
  induction l with
  | nil => intro stats _; rfl
  | cons q rest ih =>
      intro stats hm
      obtain ⟨u0, p⟩ := q
      have hne : uid ≠ u0 := by
        rintro rfl
        exact hm (by simp)
      have hm' : uid ∉ rest.map Prod.fst := by
        intro hc
        exact hm (by simp [hc])
      rw [mergeScores]
      by_cases hp : 0 < p.score
      · rw [if_pos hp, ih _ hm', add_score_lookup_ne _ _ _ _ _ _ hne]
      · rw [if_neg hp, ih _ hm']

theorem mergeScores_lookup (gid : String) :
    ∀ (l : List (String × Participant)) (stats : List (String × List (String × UserStat))),
    (l.map Prod.fst).Nodup → ∀ uid : String,
    dictGet uid ((dictGet gid (mergeScores stats gid l)).getD []) =
      (match dictGet uid l with
      | some p =>
          if 0 < p.score then
            some ⟨p.name,
              ((dictGet uid ((dictGet gid stats).getD [])).getD ⟨p.name, 0, 0⟩).score + p.score,
              ((dictGet uid ((dictGet gid stats).getD [])).getD ⟨p.name, 0, 0⟩).wins + 1⟩
          else dictGet uid ((dictGet gid stats).getD [])
      | none => dictGet uid ((dictGet gid stats).getD [])) := by
  intro l
  induction l with
  | nil =>
      intro stats _ uid
      rfl
  | cons q rest ih =>
      intro stats hnd uid
      obtain ⟨u0, p0⟩ := q
      rw [List.map_cons] at hnd
      rcases List.nodup_cons.mp hnd with ⟨hu0, hnd'⟩
      rw [mergeScores]
      by_cases hs : 0 < p0.score
      · rw [if_pos hs]
        by_cases he : u0 = uid
        · subst he
          rw [mergeScores_not_mem _ _ _ _ hu0, add_score_lookup_self]
          rw [dictGet, if_pos rfl]
          dsimp only
          rw [if_pos hs]
        · rw [ih _ hnd' uid]
          rw [dictGet, if_neg he]
          cases hr : dictGet uid rest with
          | none =>
              dsimp only
              rw [add_score_lookup_ne _ _ _ _ _ _ (fun hh => he hh.symm)]
          | some p =>
              dsimp only
              by_cases hps : 0 < p.score
              · rw [if_pos hps, if_pos hps,
                  add_score_lookup_ne _ _ _ _ _ _ (fun hh => he hh.symm)]
              · rw [if_neg hps, if_neg hps,
                  add_score_lookup_ne _ _ _ _ _ _ (fun hh => he hh.symm)]
      · rw [if_neg hs]
        by_cases he : u0 = uid
        · subst he
          rw [mergeScores_not_mem _ _ _ _ hu0]
          rw [dictGet, if_pos rfl]
          dsimp only
          rw [if_neg hs]
        · rw [ih _ hnd' uid]
          rw [dictGet, if_neg he]

theorem cancelTimer_subset (s : GameSession) (c : List Nat) : c ⊆ cancelTimer s c := by
  rw [cancelTimer]
  cases s.timeoutTask with
  | none => exact fun a ha => ha
  | some t => exact fun a ha => List.mem_cons_of_mem _ ha

theorem end_game_removes (st : PluginState) (gid : String) :
    dictGet gid (end_game st gid).1.sessions = none := by
  rw [end_game]
  cases h : dictGet gid st.sessions with
  | none => exact h
  | some s =>
      dsimp only
      by_cases hp : s.participants = []
      · rw [if_pos hp]
        exact dictGet_dictDel_self _ _
      · rw [if_neg hp]
        exact dictGet_dictDel_self _ _

theorem end_game_frame (st : PluginState) (gid : String) :
    (end_game st gid).1.songQueue = st.songQueue ∧
    (end_game st gid).1.nextTaskId = st.nextTaskId ∧
    st.cancelled ⊆ (end_game st gid).1.cancelled := by
  rw [end_game]
  cases h : dictGet gid st.sessions with
  | none => exact ⟨rfl, rfl, fun a ha => ha⟩
  | some s =>
      dsimp only
      by_cases hp : s.participants = []
      · rw [if_pos hp]
        exact ⟨rfl, rfl, cancelTimer_subset s st.cancelled⟩
      · rw [if_neg hp]
        exact ⟨rfl, rfl, cancelTimer_subset s st.cancelled⟩

theorem next_round_cancelled_subset (cfg : Config) (st : PluginState) (gid : String) :
    st.cancelled ⊆ (next_round cfg st gid).1.cancelled := by
  rw [next_round]
  cases h : dictGet gid st.sessions with
  | none => exact fun a ha => ha
  | some s =>
      dsimp only
      by_cases hm : cfg.maxRounds < s.roundNum + 1
      · rw [if_pos hm]
        exact (end_game_frame st gid).2.2
      · rw [if_neg hm]
        cases st.songQueue with
        | nil => exact (end_game_frame st gid).2.2
        | cons song rest => exact cancelTimer_subset s st.cancelled

/-- C10: ending a session with no participants leaves every durable stats
file untouched and removes the session from the registry; and after any
end-of-game processing whatsoever the group has no session entry left. -/
theorem end_game_cleanup_spec (st : PluginState) (gid : String) (s : GameSession)
    (hs : dictGet gid st.sessions = some s) (hp : s.participants = []) :
    ((end_game st gid).1.stats = st.stats ∧
     dictGet gid (end_game st gid).1.sessions = none) ∧
    (∀ (st2 : PluginState) (gid2 : String),
      dictGet gid2 (end_game st2 gid2).1.sessions = none) := by
  refine ⟨⟨?_, end_game_removes st gid⟩, fun st2 gid2 => end_game_removes st2 gid2⟩
  rw [end_game, hs]
  dsimp only
  rw [if_pos hp]

/-- Witness for C10: the demo session emptied of participants. -/
theorem end_game_cleanup_spec_witness :
    ((end_game { demoState with
        sessions := [("g", { demoSession with participants := [] })] } "g").1.stats =
      ({ demoState with
        sessions := [("g", { demoSession with participants := [] })] } : PluginState).stats ∧
     dictGet "g" (end_game { demoState with
        sessions := [("g", { demoSession with participants := [] })] } "g").1.sessions = none) ∧
    (∀ (st2 : PluginState) (gid2 : String),
      dictGet gid2 (end_game st2 gid2).1.sessions = none) := by
  exact end_game_cleanup_spec _ "g" { demoSession with participants := [] } rfl rfl

/-- C6: a round advance whose incremented round number would pass the
configured limit is exactly the settlement call — the session is removed
from the registry with no song consumed and no timer armed — and any
session that survives a round advance has a round number at most the
limit, so roundNumber never exceeds it. -/
theorem round_limit_spec (cfg : Config) (st : PluginState) (gid : String)
    (s : GameSession) (hs : dictGet gid st.sessions = some s) :
    (cfg.maxRounds < s.roundNum + 1 →
      next_round cfg st gid = end_game st gid ∧
      dictGet gid (next_round cfg st gid).1.sessions = none ∧
      (next_round cfg st gid).1.songQueue = st.songQueue ∧
      (next_round cfg st gid).1.nextTaskId = st.nextTaskId) ∧
    (∀ s2 : GameSession, dictGet gid (next_round cfg st gid).1.sessions = some s2 →
      s2.roundNum ≤ cfg.maxRounds) := by
  constructor
  · intro hm
    have he : next_round cfg st gid = end_game st gid := by
      rw [next_round, hs]
      dsimp only
      rw [if_pos hm]
    refine ⟨he, ?_, ?_, ?_⟩
    · rw [he]
      exact end_game_removes st gid
    · rw [he]
      exact (end_game_frame st gid).1
    · rw [he]
      exact (end_game_frame st gid).2.1
  · intro s2 h2
    by_cases hm : cfg.maxRounds < s.roundNum + 1
    · have he : next_round cfg st gid = end_game st gid := by
        rw [next_round, hs]
        dsimp only
        rw [if_pos hm]
      rw [he, end_game_removes] at h2
      cases h2
    · rw [next_round, hs] at h2
      dsimp only at h2
      rw [if_neg hm] at h2
      cases hq : st.songQueue with
      | nil =>
          rw [hq] at h2
          dsimp only at h2
          rw [end_game_removes] at h2
          cases h2
      | cons song rest =>
          rw [hq] at h2
          dsimp only at h2
          rw [dictGet_dictSet_self] at h2
          injection h2 with h2
          subst h2
          exact Nat.le_of_not_lt hm

/-- Witness for C6 at the demo session already sitting at the round limit. -/
theorem round_limit_spec_witness :
    dictGet "g" (next_round demoCfg
      { demoState with sessions := [("g", { demoSession with roundNum := 10 })] }
      "g").1.sessions = none ∧
    (next_round demoCfg
      { demoState with sessions := [("g", { demoSession with roundNum := 10 })] }
      "g").1.songQueue =
      ({ demoState with sessions := [("g", { demoSession with roundNum := 10 })] }
        : PluginState).songQueue := by
  have h := round_limit_spec demoCfg
    { demoState with sessions := [("g", { demoSession with roundNum := 10 })] }
    "g" { demoSession with roundNum := 10 } rfl
  exact ⟨(h.1 (by decide)).2.1, (h.1 (by decide)).2.2.1⟩

theorem rankMin_le_of_sorted :
    ∀ l : List (String × Participant),
    l.Pairwise (fun a b => b.2.score ≤ a.2.score) →
    ∀ x ∈ l, rankMin l ≤ x.2.score := by
  intro l
  induction l with
  | nil =>
      intro _ x hx
      cases hx
  | cons y ys ih =>
      intro hl x hx
      rcases List.pairwise_cons.mp hl with ⟨hy, hys⟩
      cases ys with
      | nil =>
          rcases List.mem_cons.mp hx with rfl | hx
          · exact le_refl _
          · cases hx
      | cons z zs =>
          have hmin : rankMin (y :: z :: zs) = rankMin (z :: zs) := by
            rw [rankMin, rankMin, List.getLast?_cons_cons]
          rw [hmin]
          rcases List.mem_cons.mp hx with rfl | hx
          · exact le_trans (ih hys z (List.mem_cons_self _ _)) (hy z (List.mem_cons_self _ _))
          · exact ih hys x hx

theorem end_game_settle_eq (st : PluginState) (gid : String) (s : GameSession)
    (hs : dictGet gid st.sessions = some s) (hp : s.participants ≠ []) :
    end_game st gid =
      ({ st with sessions := dictDel gid st.sessions,
                 stats := mergeScores st.stats gid (sortDescByScore s.participants),
                 cancelled := cancelTimer s st.cancelled },
       [Output.settlement s.roundNum (sortDescByScore s.participants)
          (computeChallenge (sortDescByScore s.participants))]) := by
  rw [end_game, hs]
  dsimp only
  rw [if_neg hp]

/-- C9: at settlement the ranking is a descending-by-score, stable (tied
participants keep insertion order) permutation of the roster; exactly the
positive scorers are merged into the group's durable file by adding the
session score, bumping the win count once and overwriting the stored name,
other groups' files untouched; a challenge prompt exists iff at least two
participants do; the nomination score is the roster minimum, a unique
holder of it is nominated, and on a tie the top scorer picks among the
tied holders. -/
theorem settlement_spec (st : PluginState) (gid : String) (s : GameSession)
    (hs : dictGet gid st.sessions = some s) (hp : s.participants ≠ [])
    (hnd : (s.participants.map Prod.fst).Nodup) :
    ((end_game st gid).2 =
        [Output.settlement s.roundNum (sortDescByScore s.participants)
          (computeChallenge (sortDescByScore s.participants))]) ∧
    (sortDescByScore s.participants).Perm s.participants ∧
    (sortDescByScore s.participants).Pairwise (fun a b => b.2.score ≤ a.2.score) ∧
    (∀ v : Nat, (sortDescByScore s.participants).filter (fun q => q.2.score == v) =
        s.participants.filter (fun q => q.2.score == v)) ∧
    (∀ uid : String,
      dictGet uid ((dictGet gid (end_game st gid).1.stats).getD []) =
        (match dictGet uid s.participants with
         | some p =>
            if 0 < p.score then
              some ⟨p.name,
                ((dictGet uid ((dictGet gid st.stats).getD [])).getD ⟨p.name, 0, 0⟩).score
                  + p.score,
                ((dictGet uid ((dictGet gid st.stats).getD [])).getD ⟨p.name, 0, 0⟩).wins
                  + 1⟩
            else dictGet uid ((dictGet gid st.stats).getD [])
         | none => dictGet uid ((dictGet gid st.stats).getD []))) ∧
    (∀ g2 : String, g2 ≠ gid →
      dictGet g2 (end_game st gid).1.stats = dictGet g2 st.stats) ∧
    ((computeChallenge (sortDescByScore s.participants)).isSome = true ↔
        2 ≤ s.participants.length) ∧
    (∀ x ∈ s.participants, rankMin (sortDescByScore s.participants) ≤ x.2.score) ∧
    (∀ lid lp,
      (sortDescByScore s.participants).filter
          (fun q => q.2.score == rankMin (sortDescByScore s.participants)) = [(lid, lp)] →
      2 ≤ s.participants.length →
      computeChallenge (sortDescByScore s.participants) =
        some (Challenge.nominate lid)) ∧
    (∀ wid wp t,
      sortDescByScore s.participants = (wid, wp) :: t →
      2 ≤ ((sortDescByScore s.participants).filter
          (fun q => q.2.score == rankMin (sortDescByScore s.participants))).length →
      computeChallenge (sortDescByScore s.participants) =
        some (Challenge.winnerPicks wid
          (((sortDescByScore s.participants).filter
            (fun q => q.2.score == rankMin (sortDescByScore s.participants))).map
              Prod.fst))) := by
  have hperm : (sortDescByScore s.participants).Perm s.participants :=
    sortDescByScore_perm s.participants
  have hndr : ((sortDescByScore s.participants).map Prod.fst).Nodup :=
    ((hperm.map Prod.fst).nodup_iff).mpr hnd
  have hlen : (sortDescByScore s.participants).length = s.participants.length :=
    hperm.length_eq
  have hst : (end_game st gid).1.stats =
      mergeScores st.stats gid (sortDescByScore s.participants) := by
    rw [end_game_settle_eq st gid s hs hp]
  refine ⟨?_, hperm, sortDescByScore_sorted s.participants,
    fun v => filter_sortDescByScore s.participants v, ?_, ?_, ?_, ?_, ?_, ?_⟩
  · rw [end_game_settle_eq st gid s hs hp]
  · intro uid
    rw [hst, mergeScores_lookup gid (sortDescByScore s.participants) st.stats hndr uid,
      dictGet_perm hperm hnd uid]
  · intro g2 hg2
    rw [hst, mergeScores_other_group gid g2 hg2]
  · rw [← hlen]
    rcases hshape : sortDescByScore s.participants with _ | ⟨a, _ | ⟨b, t⟩⟩
    · simp [computeChallenge]
    · simp [computeChallenge]
    · rw [computeChallenge]
      constructor
      · intro _
        simp
      · intro _
        rcases hl : (a :: b :: t).filter
            (fun q => q.2.score == rankMin (a :: b :: t)) with _ | ⟨⟨lid, lp⟩, _ | lrest⟩
        · simp [hl]
        · simp [hl]
        · simp [hl]
  · intro x hx
    exact rankMin_le_of_sorted (sortDescByScore s.participants)
      (sortDescByScore_sorted s.participants) x (hperm.mem_iff.mpr hx)
  · intro lid lp hfil hlen2
    rcases hshape : sortDescByScore s.participants with _ | ⟨a, _ | ⟨b, t⟩⟩
    · rw [hshape] at hlen
      rw [← hlen] at hlen2
      cases hlen2
    · rw [hshape] at hlen
      rw [← hlen] at hlen2
      simp at hlen2
    · rw [hshape] at hfil
      rw [computeChallenge, hfil]
  · intro wid wp t hshape hlen2
    rw [hshape] at hlen2 ⊢
    cases t with
    | nil =>
        exfalso
        have hle := List.length_filter_le
          (fun q => q.2.score == rankMin [(wid, wp)]) [(wid, wp)]
        simp only [List.length_cons, List.length_nil] at hle hlen2
        omega
    | cons b t2 =>
        rw [computeChallenge]
        rcases hl : ((wid, wp) :: b :: t2).filter
            (fun q => q.2.score == rankMin ((wid, wp) :: b :: t2)) with
          _ | ⟨⟨lid, lp⟩, _ | lrest⟩
        · rw [hl] at hlen2
          cases hlen2
        · rw [hl] at hlen2
          simp at hlen2
        · rw [hl]

/-- Witness for C9: settling the demo session outputs the expected ranking
(A before B), nominates the unique zero-scorer B, and merges only A into
the durable file (7+2 points, third win, name overwritten). -/
theorem settlement_spec_witness :
    (end_game demoState "g").2 =
      [Output.settlement 3 [("A", ⟨"甲", 2⟩), ("B", ⟨"乙", 0⟩)]
        (some (Challenge.nominate "B"))] ∧
    dictGet "A" ((dictGet "g" (end_game demoState "g").1.stats).getD []) =
      some ⟨"甲", 9, 3⟩ ∧
    dictGet "B" ((dictGet "g" (end_game demoState "g").1.stats).getD []) = none := by
  have h := settlement_spec demoState "g" demoSession rfl (by decide) (by decide)
  refine ⟨?_, ?_, ?_⟩
  · rw [h.1]
    decide
  · rw [h.2.2.2.2.1 "A"]
    decide
  · rw [h.2.2.2.2.1 "B"]
    decide

theorem on_message_core_accept_eq (cfg : Config) (st : PluginState)
    (gid uid nickname : String) (rawText : List Char) (s : GameSession) (song : Song)
    (p : Participant)
    (hs : dictGet gid st.sessions = some s)
    (hplay : s.status = Status.playing)
    (hsong : s.currentSong = some song)
    (hname : song.name ≠ [])
    (htext : pyStrip rawText ≠ [])
    (hnote : (pyStrip rawText).contains musicNote = false)
    (hcmd : ¬((pyStrip rawText).head? = some '#' ∨ (pyStrip rawText).head? = some '/'))
    (hmatch : check_answer (pyStrip rawText) song.name = true)
    (hopen : s.roundAnswered = false)
    (hmem : dictGet uid s.participants = some p) :
    on_message_core cfg st gid uid nickname rawText =
      ⟨{ st with
          sessions := (dictSet gid ({ s with
            roundAnswered := true,
            participants := dictSet uid { p with score := p.score + 1 } s.participants })
            st.sessions),
          cancelled := cancelTimer s st.cancelled },
       [Output.correctGuess uid song (p.score + 1)], true⟩ := by
  have hnote2 : ¬ musicNote ∈ pyStrip rawText := by simpa using hnote
  rw [on_message_core]
  simp [hs, hsong, hmem, hplay, hopen, hmatch, hnote2, hname, hcmd, htext]

theorem on_message_core_answered_eq (cfg : Config) (st : PluginState)
    (gid uid nickname : String) (rawText : List Char) (s : GameSession) (song : Song)
    (hs : dictGet gid st.sessions = some s)
    (hplay : s.status = Status.playing)
    (hsong : s.currentSong = some song)
    (hname : song.name ≠ [])
    (htext : pyStrip rawText ≠ [])
    (hnote : (pyStrip rawText).contains musicNote = false)
    (hcmd : ¬((pyStrip rawText).head? = some '#' ∨ (pyStrip rawText).head? = some '/'))
    (hmatch : check_answer (pyStrip rawText) song.name = true)
    (hclosed : s.roundAnswered = true) :
    on_message_core cfg st gid uid nickname rawText = ⟨st, [], false⟩ := by
  have hnote2 : ¬ musicNote ∈ pyStrip rawText := by simpa using hnote
  rw [on_message_core]
  simp [hs, hsong, hplay, hclosed, hmatch, hnote2, hname, hcmd, htext]

theorem on_message_core_nonmember_eq (cfg : Config) (st : PluginState)
    (gid uid nickname : String) (rawText : List Char) (s : GameSession) (song : Song)
    (hs : dictGet gid st.sessions = some s)
    (hplay : s.status = Status.playing)
    (hsong : s.currentSong = some song)
    (hname : song.name ≠ [])
    (htext : pyStrip rawText ≠ [])
    (hnote : (pyStrip rawText).contains musicNote = false)
    (hcmd : ¬((pyStrip rawText).head? = some '#' ∨ (pyStrip rawText).head? = some '/'))
    (hmatch : check_answer (pyStrip rawText) song.name = true)
    (hopen : s.roundAnswered = false)
    (hmem : dictGet uid s.participants = none) :
    on_message_core cfg st gid uid nickname rawText =
      ⟨st, [Output.pleaseJoin], false⟩ := by
  have hnote2 : ¬ musicNote ∈ pyStrip rawText := by simpa using hnote
  rw [on_message_core]
  simp [hs, hsong, hmem, hplay, hopen, hmatch, hnote2, hname, hcmd, htext]

/-- C2: while a round is open, the first enrolled participant whose
submission matches marks the round answered and gains exactly one point
(all other participants and fields as recorded); once the round is marked
answered a further correct submission changes nothing at all; and a
correct submission from a non-enrolled user only draws a join prompt — no
session state changes and the round stays open. -/
theorem single_credit_spec (cfg : Config) (st : PluginState)
    (gid uid nickname : String) (rawText : List Char) (s : GameSession) (song : Song)
    (hs : dictGet gid st.sessions = some s)
    (hplay : s.status = Status.playing)
    (hsong : s.currentSong = some song)
    (hname : song.name ≠ [])
    (htext : pyStrip rawText ≠ [])
    (hnote : (pyStrip rawText).contains musicNote = false)
    (hcmd : ¬((pyStrip rawText).head? = some '#' ∨ (pyStrip rawText).head? = some '/'))
    (hmatch : check_answer (pyStrip rawText) song.name = true) :
    (∀ p : Participant, s.roundAnswered = false → dictGet uid s.participants = some p →
      on_message_core cfg st gid uid nickname rawText =
        ⟨{ st with
            sessions := (dictSet gid ({ s with
              roundAnswered := true,
              participants := dictSet uid { p with score := p.score + 1 } s.participants })
              st.sessions),
            cancelled := cancelTimer s st.cancelled },
         [Output.correctGuess uid song (p.score + 1)], true⟩) ∧
    (s.roundAnswered = true →
      on_message_core cfg st gid uid nickname rawText = ⟨st, [], false⟩) ∧
    (s.roundAnswered = false → dictGet uid s.participants = none →
      on_message_core cfg st gid uid nickname rawText =
        ⟨st, [Output.pleaseJoin], false⟩) := by
  refine ⟨?_, ?_, ?_⟩
  · intro p hopen hmem
    exact on_message_core_accept_eq cfg st gid uid nickname rawText s song p
      hs hplay hsong hname htext hnote hcmd hmatch hopen hmem
  · intro hclosed
    exact on_message_core_answered_eq cfg st gid uid nickname rawText s song
      hs hplay hsong hname htext hnote hcmd hmatch hclosed
  · intro hopen hmem
    exact on_message_core_nonmember_eq cfg st gid uid nickname rawText s song
      hs hplay hsong hname htext hnote hcmd hmatch hopen hmem

/-- Witness for C2: in the demo round, B answering 月亮 is credited one
point with the round marked answered; the same submission against the
already-answered session changes nothing; and an outsider C only gets the
join prompt. -/
theorem single_credit_spec_witness :
    (on_message_core demoCfg demoState "g" "B" "乙" "月亮".toList =
      ⟨{ demoState with
          sessions := [("g", { demoSession with
            roundAnswered := true,
            participants := [("A", ⟨"甲", 2⟩), ("B", ⟨"乙", 1⟩)] })],
          cancelled := [5] },
       [Output.correctGuess "B" ⟨77, "月亮".toList, "歌手".toList⟩ 1], true⟩) ∧
    (on_message_core demoCfg
      { demoState with
        sessions := [("g", { demoSession with roundAnswered := true })] }
      "g" "B" "乙" "月亮".toList =
      ⟨{ demoState with
          sessions := [("g", { demoSession with roundAnswered := true })] }, [], false⟩) ∧
    (on_message_core demoCfg demoState "g" "C" "丙" "月亮".toList =
      ⟨demoState, [Output.pleaseJoin], false⟩) := by
  refine ⟨?_, ?_, ?_⟩
  · rw [(single_credit_spec demoCfg demoState "g" "B" "乙" "月亮".toList demoSession
      ⟨77, "月亮".toList, "歌手".toList⟩ rfl rfl rfl (by decide) (by decide) (by decide)
      (by decide) (by decide)).1 ⟨"乙", 0⟩ rfl rfl]
    decide
  · rw [(single_credit_spec demoCfg
      { demoState with
        sessions := [("g", { demoSession with roundAnswered := true })] }
      "g" "B" "乙" "月亮".toList { demoSession with roundAnswered := true }
      ⟨77, "月亮".toList, "歌手".toList⟩ rfl rfl rfl (by decide) (by decide) (by decide)
      (by decide) (by decide)).2.1 rfl]
  · rw [(single_credit_spec demoCfg demoState "g" "C" "丙" "月亮".toList demoSession
      ⟨77, "月亮".toList, "歌手".toList⟩ rfl rfl rfl (by decide) (by decide) (by decide)
      (by decide) (by decide)).2.2 rfl rfl]

theorem fire_timeout_cancelled (cfg : Config) (st : PluginState) (gid : String)
    (tid : Nat) (h : tid ∈ st.cancelled) :
    fire_timeout cfg st gid tid = (st, []) := by
  have hc : st.cancelled.contains tid = true := by simpa using h
  rw [fire_timeout, if_pos hc]

/-- C1: if a correct answer is accepted while the round timer is still in
flight, the acceptance cancels that timer before anything else, so the
timer's later firing — after the acceptance and its deferred round advance
have fully run — changes no state and emits no message (no timeout reveal,
no second round advance). -/
theorem round_trigger_exclusion_spec (cfg : Config) (st : PluginState)
    (gid uid nickname : String) (rawText : List Char) (s : GameSession) (song : Song)
    (p : Participant) (tid : Nat)
    (hs : dictGet gid st.sessions = some s)
    (hplay : s.status = Status.playing)
    (hsong : s.currentSong = some song)
    (hname : song.name ≠ [])
    (htext : pyStrip rawText ≠ [])
    (hnote : (pyStrip rawText).contains musicNote = false)
    (hcmd : ¬((pyStrip rawText).head? = some '#' ∨ (pyStrip rawText).head? = some '/'))
    (hmatch : check_answer (pyStrip rawText) song.name = true)
    (hopen : s.roundAnswered = false)
    (hmem : dictGet uid s.participants = some p)
    (htid : s.timeoutTask = some tid) :
    fire_timeout cfg (on_message cfg st gid uid nickname rawText).1 gid tid =
      ((on_message cfg st gid uid nickname rawText).1, []) := by
  have hcore := on_message_core_accept_eq cfg st gid uid nickname rawText s song p
    hs hplay hsong hname htext hnote hcmd hmatch hopen hmem
  have hmemc : tid ∈ cancelTimer s st.cancelled := by
    simp [cancelTimer, htid]
  rw [on_message, hcore]
  dsimp only
  exact fire_timeout_cancelled cfg _ gid tid
    (next_round_cancelled_subset cfg _ gid hmemc)

/-- Witness for C1: task 5 is the demo round's timer; after B's correct
answer has been processed (round advanced to song 88), firing task 5 is a
no-op. -/
theorem round_trigger_exclusion_spec_witness :
    fire_timeout demoCfg (on_message demoCfg demoState "g" "B" "乙" "月亮".toList).1
        "g" 5 =
      ((on_message demoCfg demoState "g" "B" "乙" "月亮".toList).1, []) := by
  exact round_trigger_exclusion_spec demoCfg demoState "g" "B" "乙" "月亮".toList
    demoSession ⟨77, "月亮".toList, "歌手".toList⟩ ⟨"乙", 0⟩ 5 rfl rfl rfl
    (by decide) (by decide) (by decide) (by decide) (by decide) rfl rfl rfl

theorem mem_of_dictGet_some {α : Type} {k : String} {v : α} :
    ∀ {l : List (String × α)}, dictGet k l = some v → (k, v) ∈ l := by
  intro l
  induction l with
  | nil => intro h; cases h
  | cons q rest ih =>
      intro h
      obtain ⟨k', v'⟩ := q
      rw [dictGet] at h
      by_cases hk : k' = k
      · rw [if_pos hk] at h
        injection h with h1
        subst hk
        subst h1
        exact List.mem_cons_self _ _
      · rw [if_neg hk] at h
        exact List.mem_cons_of_mem _ (ih h)

/-- C7: a 🎶 join signal is handled in both Waiting and Playing; an
enrolled sender only gets the already-joined error and a sender facing a
full roster only gets the roster-full error, both leaving the whole state
unchanged; otherwise the sender is appended to the roster with score 0 and
nothing else changes; and any enrolled participant — in particular one who
joined mid-game — appears in the settlement ranking. -/
theorem join_spec (cfg : Config) (st : PluginState) (gid uid nickname : String)
    (rawText : List Char) (s : GameSession)
    (hs : dictGet gid st.sessions = some s)
    (hstat : s.status = Status.waiting ∨ s.status = Status.playing)
    (hnote : (pyStrip rawText).contains musicNote = true) :
    (∀ p : Participant, dictGet uid s.participants = some p →
      on_message_core cfg st gid uid nickname rawText =
        ⟨st, [Output.alreadyJoined], false⟩) ∧
    (dictGet uid s.participants = none → cfg.maxPlayers ≤ s.participants.length →
      on_message_core cfg st gid uid nickname rawText =
        ⟨st, [Output.rosterFull cfg.maxPlayers], false⟩) ∧
    (dictGet uid s.participants = none → s.participants.length < cfg.maxPlayers →
      on_message_core cfg st gid uid nickname rawText =
        ⟨{ st with sessions := (dictSet gid ({ s with
              participants := s.participants ++ [(uid, ⟨nickname, 0⟩)] }) st.sessions) },
         [if s.status = Status.waiting then
            Output.joinOkWaiting uid (s.participants.length + 1)
          else Output.joinOkPlaying uid (s.participants.length + 1)], false⟩) ∧
    (∀ (st3 : PluginState) (gid3 : String) (s3 : GameSession),
      dictGet gid3 st3.sessions = some s3 → s3.participants ≠ [] →
      (dictGet uid s3.participants).isSome = true →
      (end_game st3 gid3).2 =
        [Output.settlement s3.roundNum (sortDescByScore s3.participants)
          (computeChallenge (sortDescByScore s3.participants))] ∧
      uid ∈ (sortDescByScore s3.participants).map Prod.fst) := by
  have htext : pyStrip rawText ≠ [] := by
    intro hh
    rw [hh] at hnote
    cases hnote
  have hnote2 : musicNote ∈ pyStrip rawText := by simpa using hnote
  refine ⟨?_, ?_, ?_, ?_⟩
  · intro p hmem
    rw [on_message_core]
    simp [hs, htext, hnote2, hstat, hmem]
  · intro hmem hfull
    rw [on_message_core]
    simp [hs, htext, hnote2, hstat, hmem, hfull]
  · intro hmem hroom
    rw [on_message_core]
    simp only [hs, htext, hnote2, hstat, hmem,
      dictSet_new_append uid (⟨nickname, 0⟩ : Participant) s.participants hmem]
    simp [htext, hnote2, hstat, Nat.not_le_of_lt hroom, List.length_append]
  · intro st3 gid3 s3 h3 hne hsome
    refine ⟨?_, ?_⟩
    · rw [end_game_settle_eq st3 gid3 s3 h3 hne]
    · rcases Option.isSome_iff_exists.mp hsome with ⟨p3, hp3⟩
      exact ((sortDescByScore_perm s3.participants).map Prod.fst).mem_iff.mpr
        (List.mem_map.mpr ⟨(uid, p3), mem_of_dictGet_some hp3, rfl⟩)

/-- Witness for C7: B re-joining fails as already joined; with the cap
lowered to 2 a newcomer C is turned away with the roster unchanged; with
the normal cap C joins mid-game at score 0; and the joined C appears in
the settlement ranking of the enlarged session. -/
theorem join_spec_witness :
    (on_message_core demoCfg demoState "g" "B" "乙" "🎶".toList =
      ⟨demoState, [Output.alreadyJoined], false⟩) ∧
    (on_message_core { demoCfg with maxPlayers := 2 } demoState "g" "C" "丙" "🎶".toList =
      ⟨demoState, [Output.rosterFull 2], false⟩) ∧
    (on_message_core demoCfg demoState "g" "C" "丙" "🎶".toList =
      ⟨{ demoState with
          sessions := [("g", { demoSession with
            participants := [("A", ⟨"甲", 2⟩), ("B", ⟨"乙", 0⟩), ("C", ⟨"丙", 0⟩)] })] },
       [Output.joinOkPlaying "C" 3], false⟩) ∧
    "C" ∈ (sortDescByScore
      [("A", (⟨"甲", 2⟩ : Participant)), ("B", ⟨"乙", 0⟩), ("C", ⟨"丙", 0⟩)]).map
        Prod.fst := by
  refine ⟨?_, ?_, ?_, ?_⟩
  · rw [(join_spec demoCfg demoState "g" "B" "乙" "🎶".toList demoSession rfl
      (Or.inr rfl) (by decide)).1 ⟨"乙", 0⟩ rfl]
  · rw [(join_spec { demoCfg with maxPlayers := 2 } demoState "g" "C" "丙" "🎶".toList
      demoSession rfl (Or.inr rfl) (by decide)).2.1 rfl (by decide)]
  · rw [(join_spec demoCfg demoState "g" "C" "丙" "🎶".toList demoSession rfl
      (Or.inr rfl) (by decide)).2.2.1 rfl (by decide)]
    decide
  · exact ((join_spec demoCfg
      { demoState with
        sessions := [("g", { demoSession with
          participants := [("A", ⟨"甲", 2⟩), ("B", ⟨"乙", 0⟩), ("C", ⟨"丙", 0⟩)] })] }
      "g" "C" "丙" "🎶".toList
      { demoSession with
        participants := [("A", ⟨"甲", 2⟩), ("B", ⟨"乙", 0⟩), ("C", ⟨"丙", 0⟩)] }
      rfl (Or.inr rfl) (by decide)).2.2.2
      { demoState with
        sessions := [("g", { demoSession with
          participants := [("A", ⟨"甲", 2⟩), ("B", ⟨"乙", 0⟩), ("C", ⟨"丙", 0⟩)] })] }
      "g"
      { demoSession with
        participants := [("A", ⟨"甲", 2⟩), ("B", ⟨"乙", 0⟩), ("C", ⟨"丙", 0⟩)] }
      rfl (by decide) (by decide)).2

/-- Counterexample to C8 as stated: in a waiting one-player session with a
two-player minimum, requester B — neither creator nor administrator — gets
TooFewPlayers, not the Unauthorized the claim demands for every
unauthorized requester: the player-count check runs first. -/
theorem start_order_counterexample :
    cmd_start_game { demoCfg with minPlayers := 2 }
      { demoState with sessions := [("g", { demoSession with
          status := Status.waiting, participants := [("A", ⟨"甲", 0⟩)] })] }
      "g" "B" =
      ({ demoState with sessions := [("g", { demoSession with
          status := Status.waiting, participants := [("A", ⟨"甲", 0⟩)] })] },
       [Output.tooFewPlayers 2]) ∧
    "B" ≠ ({ demoSession with
          status := Status.waiting,
          participants := [("A", (⟨"甲", 0⟩ : Participant))] } : GameSession).creatorId ∧
    "B" ∉ ({ demoCfg with minPlayers := 2 } : Config).adminIds ∧
    (cmd_start_game { demoCfg with minPlayers := 2 }
      { demoState with sessions := [("g", { demoSession with
          status := Status.waiting, participants := [("A", ⟨"甲", 0⟩)] })] }
      "g" "B").2 ≠ [Output.unauthorized] := by
  decide

/-- C8 (amended): a start request outside Waiting changes no state (a
playing session only reports its question, any other non-waiting status
reports an abnormal state); in Waiting the player-count minimum is checked
first — too few players yields TooFewPlayers even for an unauthorized
requester — then a requester who is neither creator nor administrator
gets Unauthorized; on success the session enters Playing with roundNumber
reset to 0 before the round advance, so with a song available and a
positive round limit the first played round has roundNumber 1.  Every
failure leaves the state unchanged. -/
theorem start_spec (cfg : Config) (st : PluginState) (gid uid : String)
    (s : GameSession) (hs : dictGet gid st.sessions = some s) :
    (s.status = Status.waiting → s.participants.length < cfg.minPlayers →
      cmd_start_game cfg st gid uid = (st, [Output.tooFewPlayers cfg.minPlayers])) ∧
    (s.status = Status.waiting → cfg.minPlayers ≤ s.participants.length →
      uid ≠ s.creatorId → uid ∉ cfg.adminIds →
      cmd_start_game cfg st gid uid = (st, [Output.unauthorized])) ∧
    (s.status = Status.waiting → cfg.minPlayers ≤ s.participants.length →
      (uid = s.creatorId ∨ uid ∈ cfg.adminIds) →
      cmd_start_game cfg st gid uid = start_game cfg st gid ∧
      (∀ (song : Song) (rest : List Song),
        st.songQueue = song :: rest → 1 ≤ cfg.maxRounds →
        dictGet gid (cmd_start_game cfg st gid uid).1.sessions =
          some { s with
                  status := Status.playing, roundNum := 1,
                  currentSong := some song, hintLevel := 0,
                  roundAnswered := false, timeoutTask := some st.nextTaskId })) ∧
    (s.status = Status.playing → (cmd_start_game cfg st gid uid).1 = st) ∧
    (s.status = Status.ended →
      cmd_start_game cfg st gid uid = (st, [Output.stateAbnormal])) := by
  refine ⟨?_, ?_, ?_, ?_, ?_⟩
  · intro hw hfew
    rw [cmd_start_game]
    simp [hs, hw, hfew]
  · intro hw henough hcre hadm
    rw [cmd_start_game]
    simp [hs, hw, Nat.not_lt_of_le henough, hcre, hadm]
  · intro hw henough hauth
    have hgo : cmd_start_game cfg st gid uid = start_game cfg st gid := by
      rw [cmd_start_game]
      have hna : ¬(uid ≠ s.creatorId ∧ uid ∉ cfg.adminIds) := by
        rcases hauth with h | h
        · intro hc
          exact hc.1 h
        · intro hc
          exact hc.2 h
      simp [hs, hw, Nat.not_lt_of_le henough, hna]
    refine ⟨hgo, ?_⟩
    intro song rest hq hmax
    rw [hgo, start_game]
    simp only [hs, Option.getD_some]
    rw [next_round]
    simp only [dictGet_dictSet_self, hq]
    rw [if_neg (by omega)]
    simp only [dictGet_dictSet_self]
  · intro hp
    rw [cmd_start_game]
    rcases hc : s.currentSong with _ | song
    · simp [hs, hp, hc]
    · simp [hs, hp, hc]
  · intro he
    rw [cmd_start_game]
    simp [hs, he]

/-- Witness for C8 (amended): with the demo session back in Waiting, the
creator A starts the game and round 1 begins on the queued song; and an
unauthorized requester B with enough players gets Unauthorized with no
state change. -/
theorem start_spec_witness :
    dictGet "g" (cmd_start_game demoCfg
      { demoState with
        sessions := [("g", { demoSession with status := Status.waiting })] }
      "g" "A").1.sessions =
      some { demoSession with
              status := Status.playing, roundNum := 1,
              currentSong := some ⟨88, "晴天".toList, "周杰伦".toList⟩,
              hintLevel := 0, roundAnswered := false, timeoutTask := some 6 } ∧
    cmd_start_game { demoCfg with adminIds := [] }
      { demoState with
        sessions := [("g", { demoSession with status := Status.waiting })] }
      "g" "B" =
      ({ demoState with
        sessions := [("g", { demoSession with status := Status.waiting })] },
       [Output.unauthorized]) := by
  constructor
  · have h := (start_spec demoCfg
      { demoState with
        sessions := [("g", { demoSession with status := Status.waiting })] }
      "g" "A" { demoSession with status := Status.waiting } rfl).2.2.1
      rfl (by decide) (Or.inl rfl)
    rw [h.2 ⟨88, "晴天".toList, "周杰伦".toList⟩ [] rfl (by decide)]
    decide
  · exact (start_spec { demoCfg with adminIds := [] }
      { demoState with
        sessions := [("g", { demoSession with status := Status.waiting })] }
      "g" "B" { demoSession with status := Status.waiting } rfl).2.1
      rfl (by decide) (by decide) (by decide)

/-- Counterexample to C4 as stated: the demo song title 月亮 has two
characters, yet after three hint requests the stored hintLevel is 3 — the
code increments it without any cap, so the stored value exceeds the title
length. -/
theorem hint_cap_counterexample :
    (dictGet "g" (cmd_hint (cmd_hint (cmd_hint demoState "g").1 "g").1 "g").1.sessions).map
        GameSession.hintLevel = some 3 ∧
    (dictGet "g" demoState.sessions).map
        (fun s => s.currentSong.map (fun sg => sg.name.length)) = some (some 2) ∧
    ¬(3 ≤ 2) := by
  decide

/-- C4 (amended): hintLevel is reset to 0 whenever a round advance installs
a new round; each hint request increments the stored hintLevel by exactly
one with no cap (so five requests on a length-3 title store 1,2,3,4,5) and
changes nothing else; the cap lives in the rendering, which reveals
min(hintLevel, title length) characters, so the revealed prefix never
exceeds the title. -/
theorem hint_level_spec (st : PluginState) (gid : String) (s : GameSession)
    (song : Song)
    (hs : dictGet gid st.sessions = some s)
    (hplay : s.status = Status.playing)
    (hsong : s.currentSong = some song) :
    cmd_hint st gid =
      ({ st with sessions :=
          (dictSet gid ({ s with hintLevel := s.hintLevel + 1 }) st.sessions) },
       [Output.hintMsg (s.hintLevel + 1)
          (get_hint song.name ((s.hintLevel + 1 : Nat) : Int)) song.artist]) ∧
    get_hint song.name ((s.hintLevel + 1 : Nat) : Int) =
      song.name.take (min ((s.hintLevel + 1 : Nat) : Int).toNat song.name.length) ++
      List.replicate
        (song.name.length - min ((s.hintLevel + 1 : Nat) : Int).toNat song.name.length)
        maskChar ∧
    (∀ (cfg : Config) (st2 : PluginState) (gid2 : String) (s2 : GameSession),
      dictGet gid2 (next_round cfg st2 gid2).1.sessions = some s2 →
      s2.hintLevel = 0) := by
  refine ⟨?_, get_hint_take_replicate song.name _, ?_⟩
  · rw [cmd_hint]
    simp [hs, hplay, hsong]
  · intro cfg st2 gid2 s2 h2
    cases hlook : dictGet gid2 st2.sessions with
    | none =>
        rw [next_round, hlook] at h2
        rw [hlook] at h2
        cases h2
    | some s0 =>
        rw [next_round, hlook] at h2
        dsimp only at h2
        by_cases hm : cfg.maxRounds < s0.roundNum + 1
        · rw [if_pos hm, end_game_removes] at h2
          cases h2
        · rw [if_neg hm] at h2
          cases hq : st2.songQueue with
          | nil =>
              rw [hq] at h2
              dsimp only at h2
              rw [end_game_removes] at h2
              cases h2
          | cons song0 rest =>
              rw [hq] at h2
              dsimp only at h2
              rw [dictGet_dictSet_self] at h2
              injection h2 with h2
              subst h2
              rfl

/-- Witness for C4 (amended): one hint request on the demo session stores
level 1, reveals 月 and masks the second character. -/
theorem hint_level_spec_witness :
    cmd_hint demoState "g" =
      ({ demoState with
          sessions := [("g", { demoSession with hintLevel := 1 })] },
       [Output.hintMsg 1 ['月', maskChar] "歌手".toList]) := by
  rw [(hint_level_spec demoState "g" demoSession ⟨77, "月亮".toList, "歌手".toList⟩
    rfl rfl rfl).1]
  decide
